import Mathlib

/-!
Verification of the environment-orchestration core of buckyos-devkit
(`src/remote/worksapce.py`, `src/remote/vm_mgr.py`, `src/remote/remote_device.py`,
`src/remote/main.py`) via a shallow embedding in Lean 4.

Python dictionaries are modelled as association lists with first-match
lookup and override-on-set; Python exceptions are modelled with a structured
error type, functions that may raise return the trace of effects performed
so far together with an optional error.  External-world behaviour
(the multipass CLI, the local filesystem, `os.environ`, resolved device
info) is supplied through oracle parameters.

The file is organised as: all definitions first, then all theorems.
-/

namespace BuckyDevkit

/-- Structured model of the Python exceptions raised by the core. -/
inductive Err where
  | valueError (msg : String)
  | keyError (key : String)
  | typeError
  | attributeError (msg : String)
  | runtimeError (msg : String)
  | pushError (device : String)
  | pullError (device : String)
  deriving Repr, DecidableEq

/-- A Python `dict` keyed by strings, as an association list whose first
matching entry is the binding (later `dictSet`s prepend). -/
abbrev Dict (α : Type) := List (String × α)

/-- `d.get(k)`: first binding of `k`, if any. -/
def dictGet {α : Type} (d : Dict α) (k : String) : Option α :=
  (d.find? (fun p => p.1 == k)).map (fun p => p.2)

/-- `d[k] = v`: bind `k` to `v`, shadowing any previous binding. -/
def dictSet {α : Type} (d : Dict α) (k : String) (v : α) : Dict α :=
  (k, v) :: d.filter (fun p => p.1 != k)

/-- Keys of the dict in iteration order (`list(d.keys())`). -/
def dictKeys {α : Type} (d : Dict α) : List String :=
  d.map (fun p => p.1)

/-- Membership of a list of characters inside another, as a prefix. -/
def listIsPrefix : List Char → List Char → Bool
  | [], _ => true
  | _ :: _, [] => false
  | a :: as, b :: bs => a == b && listIsPrefix as bs

/-- Membership of a list of characters inside another, contiguously. -/
def listIsInfix (xs : List Char) : List Char → Bool
  | [] => listIsPrefix xs []
  | y :: ys => listIsPrefix xs (y :: ys) || listIsInfix xs ys

/-- Python `sub in s` for strings (substring test). -/
def strContains (s sub : String) : Bool :=
  listIsInfix sub.data s.data

/-!
## Template resolution (`Workspace.resolve_string`)

`resolve_string` walks a command template with the regex
`\{\{(\w+)\.(\w+)\}\}` and substitutes each `object.attribute` reference
from `env_params`, raising `ValueError` on a missing object or attribute.
We embed a template as the regex decomposition `re.sub` operates on: a
list of literal pieces and references, processed left to right, the first
raise aborting with no output string produced.
-/

/-- One piece of a command template: a literal run of text, or a
`\x7b\x7bobject.attribute\x7d\x7d` variable reference. -/
inductive Seg where
  | lit (s : String)
  | ref (obj attr : String)
  deriving Repr, DecidableEq

/-- A command template as its regex decomposition. -/
abbrev Template := List Seg

/-- A flat attribute mapping (one object of an environment snapshot). -/
abbrev Attrs := Dict String

/-- An environment snapshot: object key to flat attribute mapping. -/
abbrev EnvParams := Dict Attrs

/-- `replace_var` of `Workspace.resolve_string`: resolve one reference,
raising `ValueError` on a missing object or missing attribute. -/
def replace_var (env : EnvParams) : Seg → Except Err String
  | Seg.lit s => Except.ok s
  | Seg.ref obj attr =>
    match dictGet env obj with
    | none => Except.error (Err.valueError ("Object " ++ obj ++ " not found in env_params"))
    | some subObj =>
      match dictGet subObj attr with
      | none => Except.error (Err.valueError ("Attribute " ++ attr ++ " not found in object " ++ obj))
      | some v => Except.ok v

/-- `Workspace.resolve_string`: substitute every reference left to right;
the first failing reference raises and no output string is produced. -/
def resolve_string (env : EnvParams) : Template → Except Err String
  | [] => Except.ok ""
  | s :: rest =>
    match replace_var env s with
    | Except.error e => Except.error e
    | Except.ok v =>
      match resolve_string env rest with
      | Except.error e => Except.error e
      | Except.ok r => Except.ok (v ++ r)

/-- A reference `obj.attr` resolves in `env` iff the object is present
and carries the attribute. -/
def refResolvable (env : EnvParams) (obj attr : String) : Bool :=
  ((dictGet env obj).bind (fun o => dictGet o attr)).isSome

/-!
## IP resolution for the backend-backed remote device
(`VMRemoteDevice._resolve_ip`, src/remote/remote_device.py)

The source loops over the backend-reported addresses returning the first
one starting with a private-range prefix; the fallback branch then
evaluates `ips.length`, an attribute Python lists do not have, so reaching
the fallback raises `AttributeError`.
-/

/-- Python `s.startswith(pre)` (string prefix test). -/
def strStartsWith (s pre : String) : Bool :=
  listIsPrefix pre.data s.data

/-- The private-range prefix test of `_resolve_ip`. -/
def isPrivateIp (ip : String) : Bool :=
  strStartsWith ip "10." || strStartsWith ip "192."

/-- `VMRemoteDevice._resolve_ip` over the address list returned by the
backend: the loop returns the first private-range address; past the loop
the code evaluates `ips.length`, which raises `AttributeError` because
Python lists have no `length` attribute. -/
def resolve_ip (ips : List String) : Except Err String :=
  match ips.find? isPrivateIp with
  | some ip => Except.ok ip
  | none => Except.error (Err.attributeError "list object has no attribute length")

/-!
## Multipass backend snapshot / restore
(`MultipassVMBackend.snapshot`, `MultipassVMBackend.restore`, src/remote/vm_mgr.py)

Each is a `try` block of three `subprocess.run(..., check=True)` calls;
a failing call raises `CalledProcessError`, the `except` clause returns
`False`, and no later call is attempted.  Provider success per step is an
oracle `stepOk`.
-/

/-- One provider CLI step of the snapshot / restore sequences. -/
inductive ProviderOp where
  | stopOp
  | snapshotOp
  | restoreOp
  | startOp
  deriving Repr, DecidableEq

/-- `MultipassVMBackend.snapshot`: stop, snapshot, start under one `try`;
returns the list of steps attempted (a failing step is attempted and
aborts the rest) together with the boolean result. -/
def multipass_snapshot (stepOk : ProviderOp → Bool) : List ProviderOp × Bool :=
  if stepOk ProviderOp.stopOp then
    if stepOk ProviderOp.snapshotOp then
      if stepOk ProviderOp.startOp then
        ([ProviderOp.stopOp, ProviderOp.snapshotOp, ProviderOp.startOp], true)
      else
        ([ProviderOp.stopOp, ProviderOp.snapshotOp, ProviderOp.startOp], false)
    else
      ([ProviderOp.stopOp, ProviderOp.snapshotOp], false)
  else
    ([ProviderOp.stopOp], false)

/-- `MultipassVMBackend.restore`: stop, restore, start under one `try`,
with the same abort-on-failure shape as `multipass_snapshot`. -/
def multipass_restore (stepOk : ProviderOp → Bool) : List ProviderOp × Bool :=
  if stepOk ProviderOp.stopOp then
    if stepOk ProviderOp.restoreOp then
      if stepOk ProviderOp.startOp then
        ([ProviderOp.stopOp, ProviderOp.restoreOp, ProviderOp.startOp], true)
      else
        ([ProviderOp.stopOp, ProviderOp.restoreOp, ProviderOp.startOp], false)
    else
      ([ProviderOp.stopOp, ProviderOp.restoreOp], false)
  else
    ([ProviderOp.stopOp], false)

/-!
## Remote directory probe and pull dispatch
(`VMRemoteDevice._remote_is_dir`, `VMRemoteDevice.pull`, src/remote/remote_device.py)

`exec_command` returns `(stdout, stderr)`, with `stdout = None` on timeout
or any execution error.  `_remote_is_dir` is `stdout and "DIR" in stdout`;
`pull` picks `pull_dir` when that is true and `pull_file` otherwise.
-/

/-- `VMRemoteDevice._remote_is_dir` as a function of the probe stdout
(`None` models a timeout or execution error). -/
def remote_is_dir (stdout : Option String) : Bool :=
  match stdout with
  | none => false
  | some s => !(s == "") && strContains s "DIR"

/-- Which transfer path `VMRemoteDevice.pull` selects. -/
inductive TransferPath where
  | dirPath
  | filePath
  deriving Repr, DecidableEq

/-- The dispatch of `VMRemoteDevice.pull`: directory transfer when the
probe classified the remote path as a directory, file transfer otherwise. -/
def vm_pull_dispatch (probeStdout : Option String) : TransferPath :=
  if remote_is_dir probeStdout then TransferPath.dirPath else TransferPath.filePath

/-- `VMRemoteDevice.pull` in full: dispatch on the probe, run the selected
transfer (success supplied by the `transferOk` oracle per path), and raise
on transfer failure. -/
def vm_pull (device : String) (probeStdout : Option String)
    (transferOk : TransferPath → Bool) : Except Err TransferPath :=
  let path := vm_pull_dispatch probeStdout
  if transferOk path then Except.ok path
  else Except.error (Err.pullError device)

/-!
## `VMManager` singleton (src/remote/vm_mgr.py)

`__new__` returns the one process-wide instance; `__init__` on an already
initialized instance keeps the backend and raises `ValueError` when a
different backend type is requested.  The process-wide state is the bound
backend type of the initialized singleton (`none` before first successful
construction).
-/

/-- Process-wide `VMManager` singleton state: the backend type the one
instance was initialized with, or `none` before first construction. -/
abbrev MgrState := Option String

/-- One construction request `VMManager(backend_type)`: returns the
post-state and either success (the singleton instance) or the raised
error.  Only the `multipass` backend implementation exists. -/
def vmmanager_construct (st : MgrState) (backend_type : String) :
    MgrState × Except Err Unit :=
  match st with
  | some bound =>
    if backend_type ≠ bound then
      (some bound, Except.error (Err.valueError
        ("VMManager is singleton with backend " ++ bound ++ " got " ++ backend_type)))
    else
      (some bound, Except.ok ())
  | none =>
    if backend_type = "multipass" then
      (some backend_type, Except.ok ())
    else
      (none, Except.error (Err.valueError ("Unsupported backend type: " ++ backend_type)))

/-!
## Topology, app descriptors, and the workspace orchestrator
(`VMConfig`, `VMNodeList` of src/remote/vm_mgr.py; `Workspace` of
src/remote/worksapce.py; `AppConfig` referenced from the absent
src/remote/app_list.py)

The instance commands and app command templates are strings the
orchestrator feeds to `resolve_string`; they are embedded as `Template`.
Effects are recorded as a trace of events, paired with the optional
exception that aborted the operation.
-/

/-- An observable effect of an orchestrator operation. -/
inductive Event where
  | createVM (name : String) (ok : Bool)
  | initExec (vm : String) (cmd : String)
  | settle (secs : Nat)
  | runLocal (cmd : String)
  | runRemote (device : String) (cmd : String)
  | pushTo (device : String) (src : String) (tgt : Option String) (kind : TransferPath)
  | skipAppNotInNode (device : String) (app : String)
  | skipAppNoSourceBin (app : String)
  | printError (msg : String)
  deriving Repr, DecidableEq

/-- Per-node configuration (`VMConfig`, src/remote/vm_mgr.py), as filled
by `VMNodeList.load_from_file`. -/
structure VMConfig where
  node_id : String
  vm_template : Option String
  vm_params : Dict String
  network : Dict String
  apps : Dict Attrs
  init_commands : List String
  /-- `instance_commands`; `none` models the defensive `is None` branch
  of `create_vms` (the loader always supplies a list). -/
  instance_commands : Option (List Template)
  directories : Dict String
  deriving Repr, DecidableEq

/-- Modelled from the spec: `AppConfig` of `src/remote/app_list.py` is
imported by the workspace but the file is absent from the sources.  Per
the spec, an app descriptor exposes a lookup from logical directory name
to path (`get_dir`) and from command name to an ordered list of template
strings (`get_command`), absent names yielding `None`; `AppList` exposes
`get_app` by name and `get_all_app_names`. -/
structure AppConfig where
  directories : Dict String
  commands : Dict (List Template)
  deriving Repr, DecidableEq

/-- The loaded workspace (`Workspace` of src/remote/worksapce.py)
together with the oracles abstracting the external world. -/
structure Workspace where
  /-- `self.nodes.nodes`: node id to config, in insertion order. -/
  nodes : Dict VMConfig
  /-- `self.nodes.instance_order`: the declared bring-up order. -/
  instance_order : List String
  /-- `self.app_list`: app name to descriptor (spec-modelled lookups). -/
  app_list : Dict AppConfig
  /-- `str(self.base_dir)`. -/
  base_dir : String
  /-- Oracle: `os.environ.copy()`. -/
  host_env : Attrs
  /-- Oracle: `self.remote_devices[node_id].get_device_info()`. -/
  device_info : String → Attrs
  /-- Oracle: success of the backend create call per node. -/
  create_ok : String → Bool
  /-- Oracle: `os.path.isdir` on the controlling host. -/
  is_local_dir : String → Bool
  /-- Oracle: success of a push transfer (device, local, remote target). -/
  push_ok : String → String → Option String → Bool

/-- `VMNodeList.get_node`. -/
def get_node (ws : Workspace) (node_id : String) : Option VMConfig :=
  dictGet ws.nodes node_id

/-- `VMNodeList.get_all_node_ids`. -/
def get_all_node_ids (ws : Workspace) : List String :=
  dictKeys ws.nodes

/-- `VMNodeList.get_node_id_by_init_orders`. -/
def get_node_id_by_init_orders (ws : Workspace) : List String :=
  ws.instance_order

/-- `VMNodeList.get_app_params`. -/
def get_app_params (ws : Workspace) (node_id app_name : String) : Option Attrs :=
  (get_node ws node_id).bind (fun c => dictGet c.apps app_name)

/-- `VMNodeList.have_app`. -/
def have_app (ws : Workspace) (node_id app_name : String) : Bool :=
  (get_app_params ws node_id app_name).isSome

/-- `Workspace.build_env_params`: start from the parent params, bind
`system` to the host environment extended with `base_dir`, then bind
every node id to its resolved device info, in node iteration order. -/
def build_env_params (ws : Workspace) (parent : EnvParams) : EnvParams :=
  let env := dictSet parent "system" (dictSet ws.host_env "base_dir" ws.base_dir)
  (get_all_node_ids ws).foldl (fun e nid => dictSet e nid (ws.device_info nid)) env

/-- Concatenation of the lists produced per element (`itertools.chain`
shape used to state trace equalities). -/
def listFlat {α β : Type} (f : α → List β) : List α → List β
  | [] => []
  | x :: xs => f x ++ listFlat f xs

/-- The command loop of `Workspace.run`: resolve each command against
`env_params` and execute it (on the host when no device is given, on the
device otherwise); a failing resolution raises, aborting the rest of the
batch; execution results are not checked. -/
def run_cmds (device : Option String) (env : EnvParams) :
    List Template → List Event × Option Err
  | [] => ([], none)
  | c :: rest =>
    match resolve_string env c with
    | Except.error e => ([], some e)
    | Except.ok rc =>
      let ev := match device with
        | none => Event.runLocal rc
        | some d => Event.runRemote d rc
      let (evs, err) := run_cmds device env rest
      (ev :: evs, err)

/-- `Workspace.run`: look the device up in `remote_devices` (keyed by the
node ids; a missing key raises `KeyError`), then resolve and run each
command. -/
def ws_run (ws : Workspace) (device_id : Option String) (cmds : List Template)
    (env : EnvParams) : List Event × Option Err :=
  match device_id with
  | none => run_cmds none env cmds
  | some d =>
    if (dictGet ws.nodes d).isSome then run_cmds (some d) env cmds
    else ([], some (Err.keyError d))

/-- `MultipassVMBackend.create_vm`: launch the instance and, on success,
synchronously execute the node init commands; failure is reported as a
boolean, not raised. -/
def backend_create_vm (ws : Workspace) (nid : String) (cfg : VMConfig) :
    List Event :=
  if ws.create_ok nid then
    Event.createVM nid true :: cfg.init_commands.map (Event.initExec nid)
  else
    [Event.createVM nid false]

/-- The per-node instance-command loop of `Workspace.create_vms`:
`self.run(node_id, [command], env_params)` for each command, the first
raise aborting. -/
def instance_cmds_loop (ws : Workspace) (nid : String) (env : EnvParams) :
    List Template → List Event × Option Err
  | [] => ([], none)
  | c :: rest =>
    let (evs, err) := ws_run ws (some nid) [c] env
    match err with
    | some e => (evs, some e)
    | none =>
      let (evs2, err2) := instance_cmds_loop ws nid env rest
      (evs ++ evs2, err2)

/-- The bring-up loop of `Workspace.create_vms` over `instance_order`:
a node id absent from the node set, or a node whose instance command list
is `None`, is skipped without any event or diagnostic; otherwise its
instance commands run against the given snapshot. -/
def bring_up_loop (ws : Workspace) (env : EnvParams) :
    List String → List Event × Option Err
  | [] => ([], none)
  | nid :: rest =>
    match dictGet ws.nodes nid with
    | none => bring_up_loop ws env rest
    | some cfg =>
      match cfg.instance_commands with
      | none => bring_up_loop ws env rest
      | some cmds =>
        let (evs, err) := instance_cmds_loop ws nid env cmds
        match err with
        | some e => (evs, some e)
        | none =>
          let (evs2, err2) := bring_up_loop ws env rest
          (evs ++ evs2, err2)

/-- `Workspace.create_vms`: issue a create for every declared node in
topology iteration order, wait the fixed settle delay, build one
environment snapshot, then run each node instance commands in
`instance_order` against that snapshot. -/
def create_vms (ws : Workspace) : List Event × Option Err :=
  let createEvts := listFlat (fun p => backend_create_vm ws p.1 p.2) ws.nodes
  let env := build_env_params ws []
  let (runEvts, err) := bring_up_loop ws env ws.instance_order
  (createEvts ++ [Event.settle 10] ++ runEvts, err)

/-- The run events one node contributes to bring-up: its instance
commands resolved against the snapshot `env`, executed on that node. -/
def node_run_events (ws : Workspace) (env : EnvParams) (nid : String) :
    List Event :=
  match dictGet ws.nodes nid with
  | none => []
  | some cfg =>
    match cfg.instance_commands with
    | none => []
    | some cmds =>
      listFlat (fun c =>
        match resolve_string env c with
        | Except.ok rc => [Event.runRemote nid rc]
        | Except.error _ => []) cmds

/-- The bring-up run events over an explicit order list. -/
def ordered_run_events_on (ws : Workspace) (env : EnvParams)
    (order : List String) : List Event :=
  listFlat (node_run_events ws env) order

/-- The bring-up run events the claim prescribes: concatenation, over the
declared `instance_order`, of each present node instance commands, each
resolved against the one snapshot `env` and executed on that node. -/
def ordered_run_events (ws : Workspace) (env : EnvParams) : List Event :=
  ordered_run_events_on ws env ws.instance_order

/-- `VMRemoteDevice.push` as called by install / update: a local
directory always takes the directory path, a file the file path; the
backend result decides whether the push raises. -/
def vm_push (ws : Workspace) (device : String) (local_path : String)
    (remote_path : Option String) : List Event × Option Err :=
  let kind := if ws.is_local_dir local_path then TransferPath.dirPath
              else TransferPath.filePath
  if ws.push_ok device local_path remote_path then
    ([Event.pushTo device local_path remote_path kind], none)
  else
    ([Event.pushTo device local_path remote_path kind], some (Err.pushError device))

/-- `Workspace.execute_app_command`: look up the node, the app instance
params on that node, the app descriptor and the named command template
list (each `None` raising `ValueError`), build the per-call snapshot from
the one app instance params plus the global snapshot, and run the
commands on the device or on the host. -/
def execute_app_command (ws : Workspace) (device_id : Option String)
    (app_name cmd_name : String) (run_in_host : Bool) :
    List Event × Option Err :=
  match device_id.bind (fun d => dictGet ws.nodes d) with
  | none => ([], some (Err.valueError "Node not found"))
  | some _ =>
    match device_id.bind (fun d => get_app_params ws d app_name) with
    | none => ([], some (Err.valueError ("App " ++ app_name ++ " not found")))
    | some app_param =>
      let env := build_env_params ws [(app_name, app_param)]
      match dictGet ws.app_list app_name with
      | none => ([], some (Err.valueError ("App " ++ app_name ++ " not found")))
      | some app_config =>
        match dictGet app_config.commands cmd_name with
        | none => ([], some (Err.valueError ("Command " ++ cmd_name ++ " not found")))
        | some cmds =>
          if run_in_host then ws_run ws none cmds env
          else ws_run ws device_id cmds env

/-- The per-app loop of `Workspace.install`: an app the node does not
declare is skipped with a printed diagnostic and the loop proceeds;
otherwise build-all runs on the host, the declared source directory is
pushed to the declared target directory (the raw configured source path
is what is pushed), and the install command runs on the device; a
missing `source` directory raises `TypeError` from `Path(None)`. -/
def install_apps (ws : Workspace) (device_id : String) :
    List String → List Event × Option Err
  | [] => ([], none)
  | app :: rest =>
    if have_app ws device_id app = false then
      let (evs, err) := install_apps ws device_id rest
      (Event.skipAppNotInNode device_id app :: evs, err)
    else
      match dictGet ws.app_list app with
      | none => ([], some (Err.valueError ("App " ++ app ++ " not found")))
      | some app_config =>
        match dictGet app_config.directories "source" with
        | none => ([], some Err.typeError)
        | some source_dir =>
          let target_dir := dictGet app_config.directories "target"
          let (e1, err1) := execute_app_command ws (some device_id) app "build_all" true
          match err1 with
          | some e => (e1, some e)
          | none =>
            let (e2, err2) := vm_push ws device_id source_dir target_dir
            match err2 with
            | some e => (e1 ++ e2, some e)
            | none =>
              let (e3, err3) := execute_app_command ws (some device_id) app "install" false
              match err3 with
              | some e => (e1 ++ e2 ++ e3, some e)
              | none =>
                let (evs, err) := install_apps ws device_id rest
                (e1 ++ e2 ++ e3 ++ evs, err)

/-- `Workspace.install`: default the requested list to every configured
app, look the device up (`KeyError` when absent), then run the per-app
loop. -/
def install (ws : Workspace) (device_id : String)
    (app_list : Option (List String)) : List Event × Option Err :=
  let apps := app_list.getD (dictKeys ws.app_list)
  if (dictGet ws.nodes device_id).isSome then install_apps ws device_id apps
  else ([], some (Err.keyError device_id))

/-- The per-app loop of `Workspace.update`: unlike install there is no
`have_app` check; an app missing from the global app list raises, an app
without a declared `source_bin` directory is skipped with a diagnostic,
and otherwise build / push / update run, `execute_app_command` raising
`ValueError` when the node does not declare the app. -/
def update_apps (ws : Workspace) (device_id : String) :
    List String → List Event × Option Err
  | [] => ([], none)
  | app :: rest =>
    match dictGet ws.app_list app with
    | none => ([], some (Err.valueError ("App " ++ app ++ " not found")))
    | some app_config =>
      match dictGet app_config.directories "source_bin" with
      | none =>
        let (evs, err) := update_apps ws device_id rest
        (Event.skipAppNoSourceBin app :: evs, err)
      | some source_bin_dir =>
        let target_bin_dir := dictGet app_config.directories "target_bin"
        let (e1, err1) := execute_app_command ws (some device_id) app "build" true
        match err1 with
        | some e => (e1, some e)
        | none =>
          let (e2, err2) := vm_push ws device_id source_bin_dir target_bin_dir
          match err2 with
          | some e => (e1 ++ e2, some e)
          | none =>
            let (e3, err3) := execute_app_command ws (some device_id) app "update" false
            match err3 with
            | some e => (e1 ++ e2 ++ e3, some e)
            | none =>
              let (evs, err) := update_apps ws device_id rest
              (e1 ++ e2 ++ e3 ++ evs, err)

/-- `Workspace.update`: same wrapper shape as `install`. -/
def update (ws : Workspace) (device_id : String)
    (app_list : Option (List String)) : List Event × Option Err :=
  let apps := app_list.getD (dictKeys ws.app_list)
  if (dictGet ws.nodes device_id).isSome then update_apps ws device_id apps
  else ([], some (Err.keyError device_id))

/-!
## Log collection (`Workspace.clog`)

The local target directory is modelled as `Option (Dict tau)`: absent, or
a directory mapping entry name to per-node pulled content, the content
itself kept opaque (type `tau`, produced by the `pull` oracle from the
node id and its declared log directory).
-/

/-- The per-node loop of `Workspace.clog`: nodes without a declared
`logs` directory are skipped; otherwise the per-node subdirectory is
created and the node log directory recursively pulled into it. -/
def clog_loop (ws : Workspace) {tau : Type} (pull : String → String → tau) :
    List String → Option (Dict tau) → Option (Dict tau)
  | [], t => t
  | nid :: rest, t =>
    match dictGet ws.nodes nid with
    | none => clog_loop ws pull rest t
    | some cfg =>
      match dictGet cfg.directories "logs" with
      | none => clog_loop ws pull rest t
      | some logs_dir =>
        clog_loop ws pull rest (some (dictSet (t.getD []) nid (pull nid logs_dir)))

/-- `Workspace.clog`: delete the whole target directory when it already
exists (`shutil.rmtree`), then collect every node with a declared log
directory into a fresh per-node subdirectory. -/
def clog (ws : Workspace) {tau : Type} (pull : String → String → tau)
    (pre : Option (Dict tau)) : Option (Dict tau) :=
  let wiped : Option (Dict tau) :=
    match pre with
    | some _ => none
    | none => none
  clog_loop ws pull (get_all_node_ids ws) wiped

/-!
## Command surface (`main`, `handle_exec_app` of src/remote/main.py)
-/

/-- Python `"." in s`. -/
def containsDot (s : String) : Bool :=
  strContains s "."

/-- Python `s.split(".", 1)`: the part before the first dot and the rest. -/
def splitFirstDot (s : String) : String × String :=
  match s.splitOn "." with
  | [] => (s, "")
  | a :: rest => (a, String.intercalate "." rest)

/-- The per-device loop of `handle_exec_app`: every exception from
`execute_app_command` is caught, printed, and iteration continues. -/
def exec_app_loop (ws : Workspace) (app_name cmd_name : String) :
    List String → List Event
  | [] => []
  | d :: rest =>
    let (evs, err) := execute_app_command ws (some d) app_name cmd_name false
    let evs2 := match err with
      | some _ => evs ++ [Event.printError ("Error on device " ++ d)]
      | none => evs
    evs2 ++ exec_app_loop ws app_name cmd_name rest

/-- `handle_exec_app`: an `app_cmd` without a dot prints an error message
and returns normally (no exception, no nonzero exit); otherwise the app
command runs on the named device (validated against the devices dict,
absent device printing an error and returning) or on every device, each
per-device exception caught. -/
def handle_exec_app (ws : Workspace) (app_cmd : String)
    (device_id : Option String) : List Event × Option Err :=
  if containsDot app_cmd = false then
    ([Event.printError ("Invalid format " ++ app_cmd)], none)
  else
    let p := splitFirstDot app_cmd
    match device_id with
    | none =>
      let targets := dictKeys ws.nodes
      if targets.isEmpty then
        ([Event.printError "No devices available in workspace"], none)
      else
        (exec_app_loop ws p.1 p.2 targets, none)
    | some d =>
      if (dictGet ws.nodes d).isSome then
        (exec_app_loop ws p.1 p.2 [d], none)
      else
        ([Event.printError ("Device " ++ d ++ " not found in workspace")], none)

/-- `main`: the process exit code as a function of the handler slot of
the parsed arguments and the handler outcome.  A missing handler prints
help and returns 1; a handler that raises propagates through
`sys.exit(main())` as a nonzero interpreter exit; a handler returning
normally yields 0 — whatever it printed. -/
def main_exit_code (handlerOutcome : Option (List Event × Option Err)) : Nat :=
  match handlerOutcome with
  | none => 1
  | some (_, some _) => 1
  | some (_, none) => 0

/-- A minimal concrete workspace used by the closed counterexamples:
one node `n1` declaring no apps, one app `a` whose descriptor declares a
`source_bin` directory and `build` / `update` commands. -/
def wsNoApp : Workspace where
  nodes := [("n1",
    { node_id := "n1", vm_template := none, vm_params := [], network := [],
      apps := [], init_commands := [], instance_commands := some [],
      directories := [] })]
  instance_order := ["n1"]
  app_list := [("a",
    { directories := [("source_bin", "rootfs/bin")],
      commands := [("build", [[Seg.lit "make"]]),
                   ("update", [[Seg.lit "make install"]])] })]
  base_dir := "/opt/buckyos"
  host_env := []
  device_info := fun _ => [("device_id", "n1"), ("ip", "10.0.0.2")]
  create_ok := fun _ => true
  is_local_dir := fun _ => true
  push_ok := fun _ _ _ => true

/-- A concrete two-node workspace whose declared bring-up order `[b, a]`
differs from the topology iteration order `[a, b]`, node `a` referencing
the resolved address of node `b`. -/
def wsOrder : Workspace where
  nodes := [
    ("a",
      { node_id := "a", vm_template := none, vm_params := [], network := [],
        apps := [], init_commands := ["apt update"],
        instance_commands := some [[Seg.lit "ping ", Seg.ref "b" "ip"]],
        directories := [] }),
    ("b",
      { node_id := "b", vm_template := none, vm_params := [], network := [],
        apps := [], init_commands := [],
        instance_commands := some [[Seg.lit "start b"]],
        directories := [] })]
  instance_order := ["b", "a"]
  app_list := []
  base_dir := "/opt/buckyos"
  host_env := [("PATH", "/usr/bin")]
  device_info := fun nid => [("device_id", nid), ("ip", "10.0.0." ++ nid)]
  create_ok := fun _ => true
  is_local_dir := fun _ => true
  push_ok := fun _ _ _ => true

/-!
# Theorems
-/

theorem dictGet_dictSet_self {α : Type} (d : Dict α) (k : String) (v : α) :
    dictGet (dictSet d k v) k = some v := by
  simp [dictGet, dictSet]

theorem dictGet_dictSet_ne {α : Type} (d : Dict α) (k k2 : String) (v : α)
    (h : k2 ≠ k) : dictGet (dictSet d k v) k2 = dictGet d k2 := by
  simp only [dictGet, dictSet]
  have hk : (k == k2) = false := by
    simp [beq_iff_eq]; intro he; exact h he.symm
  rw [List.find?]
  simp only [hk]
  induction d with
  | nil => simp
  | cons p rest ih =>
    by_cases hp : p.1 = k
    · have h1 : (p.1 != k) = false := by simp [hp]
      have h2 : (p.1 == k2) = false := by
        simp [beq_iff_eq, hp]; intro he; exact h (he ▸ rfl)
      simp only [List.filter, h1]
      rw [List.find?]
      simp only [h2, cond_false]
      exact ih
    · have h1 : (p.1 != k) = true := by simp [hp]
      simp only [List.filter, h1]
      rw [List.find?, List.find?]
      cases hc : (p.1 == k2) with
      | true => simp
      | false => simp only [cond_false]; exact ih

theorem resolve_string_ok_of_all_resolvable (env : EnvParams) :
    ∀ t : Template,
      (∀ obj attr, Seg.ref obj attr ∈ t → refResolvable env obj attr = true) →
      ∃ s, resolve_string env t = Except.ok s := by
  intro t
  induction t with
  | nil => intro _; exact ⟨"", rfl⟩
  | cons seg rest ih =>
    intro h
    have hrest : ∃ s, resolve_string env rest = Except.ok s := by
      apply ih
      intro obj attr hm
      exact h obj attr (List.mem_cons_of_mem _ hm)
    obtain ⟨sr, hsr⟩ := hrest
    cases seg with
    | lit s =>
      exact ⟨s ++ sr, by simp [resolve_string, replace_var, hsr]⟩
    | ref obj attr =>
      have hres : refResolvable env obj attr = true :=
        h obj attr (List.mem_cons_self _ _)
      simp only [refResolvable, Option.isSome_iff_exists] at hres
      obtain ⟨v, hv⟩ := hres
      rw [Option.bind_eq_some] at hv
      obtain ⟨o, ho, hvo⟩ := hv
      exact ⟨v ++ sr, by simp [resolve_string, replace_var, ho, hvo, hsr]⟩

theorem replace_var_error_valueError (env : EnvParams) (seg : Seg) (e : Err)
    (h : replace_var env seg = Except.error e) : ∃ msg, e = Err.valueError msg := by
  cases seg with
  | lit s => exact Except.noConfusion h
  | ref obj attr =>
    cases ho : dictGet env obj with
    | none =>
      simp only [replace_var, ho] at h
      injection h with h2
      exact ⟨_, h2.symm⟩
    | some o =>
      cases ha : dictGet o attr with
      | none =>
        simp only [replace_var, ho, ha] at h
        injection h with h2
        exact ⟨_, h2.symm⟩
      | some v =>
        simp only [replace_var, ho, ha] at h
        exact Except.noConfusion h

/-- C2: for every template and every snapshot, a reference to an absent
object id or an absent attribute makes `resolve_string` raise a
`ValueError`; no output string is produced, so there is no partial
substitution and no default value. -/
theorem resolve_string_absent_ref_errors (env : EnvParams) (t : Template)
    (obj attr : String) (hmem : Seg.ref obj attr ∈ t)
    (habs : refResolvable env obj attr = false) :
    ∃ msg, resolve_string env t = Except.error (Err.valueError msg) := by
  induction t with
  | nil => cases hmem
  | cons seg rest ih =>
    cases hseg : replace_var env seg with
    | error e =>
      obtain ⟨m2, hm2⟩ := replace_var_error_valueError env seg e hseg
      exact ⟨m2, by rw [hm2] at hseg; simp [resolve_string, hseg]⟩
    | ok v =>
      rcases List.mem_cons.mp hmem with hhead | htail
      · subst hhead
        simp only [refResolvable] at habs
        cases ho : dictGet env obj with
        | none =>
          simp only [replace_var, ho] at hseg
          exact Except.noConfusion hseg
        | some o =>
          cases ha : dictGet o attr with
          | none =>
            simp only [replace_var, ho, ha] at hseg
            exact Except.noConfusion hseg
          | some w =>
            rw [ho] at habs
            simp [ha] at habs
      · obtain ⟨msg, hmsg⟩ := ih htail
        exact ⟨msg, by simp [resolve_string, hseg, hmsg]⟩

/-- Closed witness for `resolve_string_absent_ref_errors`: resolving
a template referencing `node9.ip` against a snapshot containing only
`node1` raises. -/
theorem resolve_string_absent_ref_errors_witness :
    Seg.ref "node9" "ip" ∈ [Seg.lit "ping ", Seg.ref "node9" "ip"] ∧
    refResolvable [("node1", [("ip", "10.0.0.1")])] "node9" "ip" = false ∧
    ∃ msg, resolve_string [("node1", [("ip", "10.0.0.1")])]
      [Seg.lit "ping ", Seg.ref "node9" "ip"] = Except.error (Err.valueError msg) := by
  refine ⟨by decide, by decide, ?_⟩
  exact resolve_string_absent_ref_errors _ _ "node9" "ip" (by decide) (by decide)

/-- C3 (code defect): on a non-empty address list with no private-range
address, `_resolve_ip` does not fall back to the first address: the
fallback branch evaluates `ips.length`, which Python lists do not have, so
it raises `AttributeError`.  When a private-range address is present the
first one is returned, as the claim states. -/
theorem resolve_ip_fallback_raises :
    resolve_ip ["8.8.8.8"] =
      Except.error (Err.attributeError "list object has no attribute length") ∧
    resolve_ip ["8.8.8.8", "10.0.0.7", "192.168.1.2"] = Except.ok "10.0.0.7" := by
  constructor <;> rfl

/-- C6: after the first successful construction fixes the backend, a second
construction request with the same backend name returns the same singleton
(state unchanged, no error), and a request naming a different backend
raises `ValueError` and leaves the bound backend unchanged. -/
theorem vmmanager_singleton_behaviour (other : String)
    (hne : other ≠ "multipass") :
    vmmanager_construct none "multipass" = (some "multipass", Except.ok ()) ∧
    vmmanager_construct (some "multipass") "multipass" =
      (some "multipass", Except.ok ()) ∧
    ∃ msg, vmmanager_construct (some "multipass") other =
      (some "multipass", Except.error (Err.valueError msg)) := by
  refine ⟨by simp [vmmanager_construct], by simp [vmmanager_construct], ?_⟩
  refine ⟨"VMManager is singleton with backend multipass got " ++ other, ?_⟩
  simp [vmmanager_construct, hne]

/-- Closed witness for `vmmanager_singleton_behaviour` with the differing
backend name `docker`. -/
theorem vmmanager_singleton_behaviour_witness :
    "docker" ≠ "multipass" ∧
    (vmmanager_construct none "multipass" = (some "multipass", Except.ok ()) ∧
     vmmanager_construct (some "multipass") "multipass" =
       (some "multipass", Except.ok ()) ∧
     ∃ msg, vmmanager_construct (some "multipass") "docker" =
       (some "multipass", Except.error (Err.valueError msg))) :=
  ⟨by decide, vmmanager_singleton_behaviour "docker" (by decide)⟩

/-- C7: the backend snapshot and restore operations are exactly the
three-step sequence stop, then snapshot (resp. restore), then start; a
failing step aborts the sequence (no later step is attempted, no
compensating step is executed) and the operation reports false; if all
three steps succeed it reports true. -/
theorem backend_snapshot_restore_three_step (stepOk : ProviderOp → Bool) :
    (stepOk ProviderOp.stopOp = false →
      multipass_snapshot stepOk = ([ProviderOp.stopOp], false) ∧
      multipass_restore stepOk = ([ProviderOp.stopOp], false)) ∧
    (stepOk ProviderOp.stopOp = true → stepOk ProviderOp.snapshotOp = false →
      multipass_snapshot stepOk = ([ProviderOp.stopOp, ProviderOp.snapshotOp], false)) ∧
    (stepOk ProviderOp.stopOp = true → stepOk ProviderOp.restoreOp = false →
      multipass_restore stepOk = ([ProviderOp.stopOp, ProviderOp.restoreOp], false)) ∧
    (stepOk ProviderOp.stopOp = true → stepOk ProviderOp.snapshotOp = true →
      stepOk ProviderOp.startOp = false →
      multipass_snapshot stepOk =
        ([ProviderOp.stopOp, ProviderOp.snapshotOp, ProviderOp.startOp], false)) ∧
    (stepOk ProviderOp.stopOp = true → stepOk ProviderOp.restoreOp = true →
      stepOk ProviderOp.startOp = false →
      multipass_restore stepOk =
        ([ProviderOp.stopOp, ProviderOp.restoreOp, ProviderOp.startOp], false)) ∧
    (stepOk ProviderOp.stopOp = true → stepOk ProviderOp.snapshotOp = true →
      stepOk ProviderOp.startOp = true →
      multipass_snapshot stepOk =
        ([ProviderOp.stopOp, ProviderOp.snapshotOp, ProviderOp.startOp], true)) ∧
    (stepOk ProviderOp.stopOp = true → stepOk ProviderOp.restoreOp = true →
      stepOk ProviderOp.startOp = true →
      multipass_restore stepOk =
        ([ProviderOp.stopOp, ProviderOp.restoreOp, ProviderOp.startOp], true)) := by
  refine ⟨?_, ?_, ?_, ?_, ?_, ?_, ?_⟩ <;>
    intros <;> simp_all [multipass_snapshot, multipass_restore]

/-- Closed witness for `backend_snapshot_restore_three_step`: with every
provider step succeeding, snapshot runs stop, snapshot, start and reports
true. -/
theorem backend_snapshot_restore_three_step_witness :
    multipass_snapshot (fun _ => true) =
      ([ProviderOp.stopOp, ProviderOp.snapshotOp, ProviderOp.startOp], true) :=
  (backend_snapshot_restore_three_step (fun _ => true)).2.2.2.2.2.1 rfl rfl rfl

/-- C9: the backend-backed pull selects the directory-transfer path
exactly when the probe produced stdout containing `DIR`; a probe with no
stdout (timeout or execution error) or stdout without `DIR` selects the
file-transfer path, and the dispatch never raises: with the selected
transfer succeeding, `pull` returns normally even for a failed probe. -/
theorem vm_pull_dispatch_spec (probe : Option String) (device : String) :
    (vm_pull_dispatch probe = TransferPath.dirPath ↔
      ∃ s, probe = some s ∧ strContains s "DIR" = true) ∧
    vm_pull_dispatch none = TransferPath.filePath ∧
    (∀ transferOk : TransferPath → Bool, transferOk (vm_pull_dispatch probe) = true →
      vm_pull device probe transferOk = Except.ok (vm_pull_dispatch probe)) := by
  refine ⟨?_, by simp [vm_pull_dispatch, remote_is_dir], ?_⟩
  · cases probe with
    | none =>
      simp only [vm_pull_dispatch, remote_is_dir]
      constructor
      · intro h; cases h
      · rintro ⟨s, hs, _⟩; cases hs
    | some s =>
      constructor
      · intro h
        refine ⟨s, rfl, ?_⟩
        by_contra hc
        have hc2 : strContains s "DIR" = false := by
          cases hsc : strContains s "DIR" with
          | false => rfl
          | true => exact absurd hsc hc
        simp [vm_pull_dispatch, remote_is_dir, hc2] at h
      · rintro ⟨s2, hs2, hc⟩
        injection hs2 with hss
        subst hss
        have hne : (s == "") = false := by
          cases hs0 : (s == "") with
          | false => rfl
          | true =>
            have hempty : s = "" := by simpa using hs0
            subst hempty
            have hno : strContains "" "DIR" = false := by decide
            rw [hno] at hc
            cases hc
        simp [vm_pull_dispatch, remote_is_dir, hne, hc]
  · intro transferOk hok
    simp [vm_pull, hok]

/-- Closed witness for `vm_pull_dispatch_spec`: a probe answering `DIR`
with a succeeding transfer selects and runs the directory path. -/
theorem vm_pull_dispatch_spec_witness :
    vm_pull "node1" (some "DIR") (fun _ => true) = Except.ok TransferPath.dirPath := by
  have hd : vm_pull_dispatch (some "DIR") = TransferPath.dirPath := by decide
  have h := (vm_pull_dispatch_spec (some "DIR") "node1").2.2 (fun _ => true) rfl
  rw [hd] at h
  exact h

/-- C4 counterexample: on a node declaring no apps, updating an app that
is globally configured with a binary source directory does not skip the
app — the batch fails with a raised `ValueError` (from
`execute_app_command`), producing no skip event. -/
theorem update_undeclared_app_not_skipped :
    update wsNoApp "n1" (some ["a"]) =
      ([], some (Err.valueError "App a not found")) ∧
    (update wsNoApp "n1" (some ["a"])).2 ≠ none := by
  constructor
  · rfl
  · intro h
    rw [show update wsNoApp "n1" (some ["a"]) =
      ([], some (Err.valueError "App a not found")) from rfl] at h
    cases h

/-- C4 (amended): install skips, without raising, each requested app not
declared in the node app mapping and proceeds with the remaining apps;
update skips, with a printed diagnostic, an app lacking a declared binary
source directory; but update does NOT skip an app undeclared for the
node: when that app is globally configured with a binary source
directory, update raises `ValueError` and the batch fails. -/
theorem install_update_skip_behaviour (ws : Workspace) (dev app : String)
    (rest : List String) (hnd : have_app ws dev app = false) :
    install_apps ws dev (app :: rest) =
      (Event.skipAppNotInNode dev app :: (install_apps ws dev rest).1,
        (install_apps ws dev rest).2) ∧
    (∀ cfg, dictGet ws.app_list app = some cfg →
      dictGet cfg.directories "source_bin" = none →
      update_apps ws dev (app :: rest) =
        (Event.skipAppNoSourceBin app :: (update_apps ws dev rest).1,
          (update_apps ws dev rest).2)) ∧
    (∀ cfg sbd, dictGet ws.app_list app = some cfg →
      dictGet cfg.directories "source_bin" = some sbd →
      (dictGet ws.nodes dev).isSome = true →
      update_apps ws dev (app :: rest) =
        ([], some (Err.valueError ("App " ++ app ++ " not found")))) := by
  refine ⟨?_, ?_, ?_⟩
  · rcases hi : install_apps ws dev rest with ⟨evs, err⟩
    simp [install_apps, hnd, hi]
  · intro cfg hcfg hsb
    rcases hu : update_apps ws dev rest with ⟨evs, err⟩
    simp [update_apps, hcfg, hsb, hu]
  · intro cfg sbd hcfg hsb hdev
    have hap : get_app_params ws dev app = none := by
      have := hnd
      simp only [have_app] at this
      exact Option.not_isSome_iff_eq_none.mp (by simp [this])
    have hexec : execute_app_command ws (some dev) app "build" true =
        ([], some (Err.valueError ("App " ++ app ++ " not found"))) := by
      rcases Option.isSome_iff_exists.mp hdev with ⟨cfgd, hd⟩
      simp [execute_app_command, hd, hap]
    simp [update_apps, hcfg, hsb, hexec]

/-- Closed witness for `install_update_skip_behaviour` on the concrete
workspace with a node declaring no apps. -/
theorem install_update_skip_behaviour_witness :
    have_app wsNoApp "n1" "a" = false ∧
    install_apps wsNoApp "n1" ["a"] =
      (Event.skipAppNotInNode "n1" "a" :: (install_apps wsNoApp "n1" []).1,
        (install_apps wsNoApp "n1" []).2) :=
  ⟨by decide, (install_update_skip_behaviour wsNoApp "n1" "a" [] (by decide)).1⟩

/-- C5 counterexample: an `exec` invocation whose app_cmd argument
contains no dot is an explicit validation failure, yet the handler prints
an error and returns normally, so `main` returns exit code 0, not 1. -/
theorem exec_no_dot_exit_code_zero :
    containsDot "nodot" = false ∧
    handle_exec_app wsNoApp "nodot" none =
      ([Event.printError "Invalid format nodot"], none) ∧
    main_exit_code (some (handle_exec_app wsNoApp "nodot" none)) = 0 := by
  refine ⟨by decide, by decide, by decide⟩

/-- C5 (amended): the exit code is 0 on a handler returning normally and
1 when the parsed arguments carry no handler; a handler-level validation
failure such as an `exec` app_cmd without a dot prints an error and
returns normally, so the process exit code is 0 rather than 1. -/
theorem main_exit_code_behaviour (ws : Workspace) (app_cmd : String)
    (h : containsDot app_cmd = false) :
    main_exit_code none = 1 ∧
    handle_exec_app ws app_cmd none =
      ([Event.printError ("Invalid format " ++ app_cmd)], none) ∧
    main_exit_code (some (handle_exec_app ws app_cmd none)) = 0 := by
  refine ⟨rfl, ?_, ?_⟩
  · simp [handle_exec_app, h]
  · simp [handle_exec_app, h, main_exit_code]

/-- Closed witness for `main_exit_code_behaviour` at the dot-less
app_cmd `start`. -/
theorem main_exit_code_behaviour_witness :
    main_exit_code none = 1 ∧
    handle_exec_app wsNoApp "start" none =
      ([Event.printError "Invalid format start"], none) ∧
    main_exit_code (some (handle_exec_app wsNoApp "start" none)) = 0 :=
  main_exit_code_behaviour wsNoApp "start" (by decide)

theorem mem_dictKeys_of_dictGet_some {α : Type} (d : Dict α) (k : String)
    (v : α) (h : dictGet d k = some v) : k ∈ dictKeys d := by
  unfold dictGet at h
  cases hf : List.find? (fun p => p.1 == k) d with
  | none => rw [hf] at h; cases h
  | some p =>
    have hpk := List.find?_some hf
    have hmem : p ∈ d := List.mem_of_find?_eq_some hf
    have hk : p.1 = k := by simpa using hpk
    subst hk
    exact List.mem_map_of_mem (fun q => q.1) hmem

theorem clog_loop_not_mem {tau : Type} (ws : Workspace)
    (pull : String → String → tau) (nid : String) :
    ∀ (ids : List String) (t : Option (Dict tau)), nid ∉ ids →
      dictGet ((clog_loop ws pull ids t).getD []) nid =
        dictGet (t.getD []) nid := by
  intro ids
  induction ids with
  | nil => intro t _; rfl
  | cons a rest ih =>
    intro t h
    have hna : nid ≠ a := fun he => h (he ▸ List.mem_cons_self a rest)
    have hrest : nid ∉ rest := fun hm => h (List.mem_cons_of_mem a hm)
    cases hca : dictGet ws.nodes a with
    | none => simpa [clog_loop, hca] using ih t hrest
    | some cfg =>
      cases hld : dictGet cfg.directories "logs" with
      | none => simpa [clog_loop, hca, hld] using ih t hrest
      | some ld =>
        have := ih (some (dictSet (t.getD []) a (pull a ld))) hrest
        simp only [clog_loop, hca, hld]
        rw [this]
        simpa using dictGet_dictSet_ne (t.getD []) a nid (pull a ld) hna

theorem clog_loop_mem {tau : Type} (ws : Workspace)
    (pull : String → String → tau) (nid : String) (cfg : VMConfig)
    (ld : String) (hcfg : dictGet ws.nodes nid = some cfg)
    (hld : dictGet cfg.directories "logs" = some ld) :
    ∀ (ids : List String) (t : Option (Dict tau)), nid ∈ ids → ids.Nodup →
      dictGet ((clog_loop ws pull ids t).getD []) nid =
        some (pull nid ld) := by
  intro ids
  induction ids with
  | nil => intro t h; cases h
  | cons a rest ih =>
    intro t hin hnd
    by_cases hna : nid = a
    · subst hna
      have hrest : nid ∉ rest := (List.nodup_cons.mp hnd).1
      simp only [clog_loop, hcfg, hld]
      rw [clog_loop_not_mem ws pull nid rest _ hrest]
      simpa using dictGet_dictSet_self (t.getD []) nid (pull nid ld)
    · have hin2 : nid ∈ rest := by
        rcases List.mem_cons.mp hin with h | h
        · exact absurd h hna
        · exact h
      have hnd2 : rest.Nodup := (List.nodup_cons.mp hnd).2
      cases hca : dictGet ws.nodes a with
      | none => simpa [clog_loop, hca] using ih t hin2 hnd2
      | some cfga =>
        cases hlda : dictGet cfga.directories "logs" with
        | none => simpa [clog_loop, hca, hlda] using ih t hin2 hnd2
        | some lda =>
          simpa [clog_loop, hca, hlda] using
            ih (some (dictSet (t.getD []) a (pull a lda))) hin2 hnd2

theorem clog_loop_never_sets {tau : Type} (ws : Workspace)
    (pull : String → String → tau) (nid : String)
    (hskip : dictGet ws.nodes nid = none ∨
      ∃ cfg, dictGet ws.nodes nid = some cfg ∧
        dictGet cfg.directories "logs" = none) :
    ∀ (ids : List String) (t : Option (Dict tau)),
      dictGet ((clog_loop ws pull ids t).getD []) nid =
        dictGet (t.getD []) nid := by
  intro ids
  induction ids with
  | nil => intro t; rfl
  | cons a rest ih =>
    intro t
    by_cases hna : nid = a
    · subst hna
      rcases hskip with hnone | ⟨cfg, hcfg, hld⟩
      · simpa [clog_loop, hnone] using ih t
      · simpa [clog_loop, hcfg, hld] using ih t
    · cases hca : dictGet ws.nodes a with
      | none => simpa [clog_loop, hca] using ih t
      | some cfga =>
        cases hlda : dictGet cfga.directories "logs" with
        | none => simpa [clog_loop, hca, hlda] using ih t
        | some lda =>
          have := ih (some (dictSet (t.getD []) a (pull a lda)))
          simp only [clog_loop, hca, hlda]
          rw [this]
          simpa using
            dictGet_dictSet_ne (t.getD []) a nid (pull a lda) hna

/-- C8: log collection wipes any pre-existing target directory and
rebuilds it solely from the nodes, so the final tree is independent of
the initial target state and running clog twice in sequence yields the
identical final tree; every node with a declared `logs` directory ends
with exactly its freshly pulled per-node subdirectory, and a node with no
declared `logs` directory contributes no subdirectory. -/
theorem clog_full_replace {tau : Type} (ws : Workspace)
    (pull : String → String → tau) (pre pre2 : Option (Dict tau))
    (hnd : (dictKeys ws.nodes).Nodup) :
    clog ws pull pre = clog ws pull pre2 ∧
    clog ws pull (clog ws pull pre) = clog ws pull pre ∧
    (∀ nid cfg ld, dictGet ws.nodes nid = some cfg →
      dictGet cfg.directories "logs" = some ld →
      dictGet ((clog ws pull pre).getD []) nid = some (pull nid ld)) ∧
    (∀ nid, (dictGet ws.nodes nid = none ∨
        ∃ cfg, dictGet ws.nodes nid = some cfg ∧
          dictGet cfg.directories "logs" = none) →
      dictGet ((clog ws pull pre).getD []) nid = none) := by
  have hwipe : ∀ p : Option (Dict tau), clog ws pull p =
      clog_loop ws pull (get_all_node_ids ws) none := by
    intro p
    cases p <;> rfl
  refine ⟨?_, ?_, ?_, ?_⟩
  · rw [hwipe pre, hwipe pre2]
  · rw [hwipe pre, hwipe (clog_loop ws pull (get_all_node_ids ws) none)]
  · intro nid cfg ld hcfg hld
    rw [hwipe pre]
    have hin : nid ∈ get_all_node_ids ws :=
      mem_dictKeys_of_dictGet_some ws.nodes nid cfg hcfg
    exact clog_loop_mem ws pull nid cfg ld hcfg hld
      (get_all_node_ids ws) none hin hnd
  · intro nid hskip
    rw [hwipe pre]
    rw [clog_loop_never_sets ws pull nid hskip (get_all_node_ids ws) none]
    rfl

/-- Closed witness for `clog_full_replace`: collecting into a
pre-populated target and into an absent target yields the same tree. -/
theorem clog_full_replace_witness :
    clog wsOrder (fun nid ld => nid ++ ld) (some [("stale", "junk")]) =
      clog wsOrder (fun nid ld => nid ++ ld) none :=
  (clog_full_replace wsOrder (fun nid ld => nid ++ ld)
    (some [("stale", "junk")]) none (by decide)).1

theorem dictGet_foldl_dictSet_not_mem {α : Type} (f : String → α) :
    ∀ (ids : List String) (e0 : Dict α) (k : String), k ∉ ids →
      dictGet (ids.foldl (fun e i => dictSet e i (f i)) e0) k = dictGet e0 k := by
  intro ids
  induction ids with
  | nil => intro e0 k _; rfl
  | cons a rest ih =>
    intro e0 k h
    have hna : k ≠ a := fun he => h (he ▸ List.mem_cons_self a rest)
    have hrest : k ∉ rest := fun hm => h (List.mem_cons_of_mem a hm)
    rw [List.foldl_cons, ih (dictSet e0 a (f a)) k hrest]
    exact dictGet_dictSet_ne e0 a k (f a) hna

theorem dictGet_foldl_dictSet_mem {α : Type} (f : String → α) :
    ∀ (ids : List String) (e0 : Dict α) (k : String), k ∈ ids → ids.Nodup →
      dictGet (ids.foldl (fun e i => dictSet e i (f i)) e0) k = some (f k) := by
  intro ids
  induction ids with
  | nil => intro e0 k h _; cases h
  | cons a rest ih =>
    intro e0 k hin hnd
    rw [List.foldl_cons]
    by_cases hka : k = a
    · subst hka
      rw [dictGet_foldl_dictSet_not_mem f rest _ k (List.nodup_cons.mp hnd).1]
      exact dictGet_dictSet_self e0 k (f k)
    · have hin2 : k ∈ rest := by
        rcases List.mem_cons.mp hin with h | h
        · exact absurd h hka
        · exact h
      exact ih _ k hin2 (List.nodup_cons.mp hnd).2

theorem instance_cmds_loop_ok (ws : Workspace) (nid : String)
    (env : EnvParams) (hs : (dictGet ws.nodes nid).isSome = true) :
    ∀ cmds : List Template, (instance_cmds_loop ws nid env cmds).2 = none →
      (instance_cmds_loop ws nid env cmds).1 =
        listFlat (fun c => match resolve_string env c with
          | Except.ok rc => [Event.runRemote nid rc]
          | Except.error _ => []) cmds := by
  intro cmds
  induction cmds with
  | nil => intro _; rfl
  | cons c rest ih =>
    intro h
    cases hr : resolve_string env c with
    | error e =>
      exfalso
      simp [instance_cmds_loop, ws_run, hs, run_cmds, hr] at h
    | ok rc =>
      have hws : ws_run ws (some nid) [c] env =
          ([Event.runRemote nid rc], none) := by
        simp [ws_run, hs, run_cmds, hr]
      rcases hrec : instance_cmds_loop ws nid env rest with ⟨evs2, err2⟩
      have hred : instance_cmds_loop ws nid env (c :: rest) =
          (Event.runRemote nid rc :: evs2, err2) := by
        simp [instance_cmds_loop, hws, hrec]
      rw [hred] at h ⊢
      have h2 : err2 = none := h
      have hi := ih (by rw [hrec, h2])
      rw [hrec] at hi
      have hi2 : evs2 = listFlat (fun c => match resolve_string env c with
          | Except.ok rc => [Event.runRemote nid rc]
          | Except.error _ => []) rest := hi
      simp [listFlat, hr, hi2]

theorem bring_up_loop_ok (ws : Workspace) (env : EnvParams) :
    ∀ order : List String, (bring_up_loop ws env order).2 = none →
      (bring_up_loop ws env order).1 = ordered_run_events_on ws env order := by
  intro order
  induction order with
  | nil => intro _; rfl
  | cons nid rest ih =>
    intro h
    cases hca : dictGet ws.nodes nid with
    | none =>
      have hred : bring_up_loop ws env (nid :: rest) =
          bring_up_loop ws env rest := by
        simp [bring_up_loop, hca]
      rw [hred] at h ⊢
      rw [ih h]
      simp [ordered_run_events_on, listFlat, node_run_events, hca]
    | some cfg =>
      cases hic : cfg.instance_commands with
      | none =>
        have hred : bring_up_loop ws env (nid :: rest) =
            bring_up_loop ws env rest := by
          simp [bring_up_loop, hca, hic]
        rw [hred] at h ⊢
        rw [ih h]
        simp [ordered_run_events_on, listFlat, node_run_events, hca, hic]
      | some cmds =>
        rcases hil : instance_cmds_loop ws nid env cmds with ⟨evs, err⟩
        cases err with
        | some e =>
          have hred : bring_up_loop ws env (nid :: rest) = (evs, some e) := by
            simp [bring_up_loop, hca, hic, hil]
          rw [hred] at h
          cases h
        | none =>
          rcases hbr : bring_up_loop ws env rest with ⟨evs2, err2⟩
          have hred : bring_up_loop ws env (nid :: rest) =
              (evs ++ evs2, err2) := by
            simp [bring_up_loop, hca, hic, hil, hbr]
          rw [hred] at h ⊢
          have hi := ih (by rw [hbr]; exact h)
          rw [hbr] at hi
          have hi2 : evs2 = ordered_run_events_on ws env rest := hi
          have hev : evs = listFlat (fun c => match resolve_string env c with
              | Except.ok rc => [Event.runRemote nid rc]
              | Except.error _ => []) cmds := by
            have h3 := instance_cmds_loop_ok ws nid env (by simp [hca]) cmds
              (by rw [hil])
            rw [hil] at h3
            exact h3
          simp [ordered_run_events_on, listFlat, node_run_events, hca, hic,
            hev, hi2]

/-- C1: on an error-free global bring-up, the trace of `create_vms` is
exactly: a create (with its init commands) for every declared node in
topology order, the fixed settle delay, then every node's instance
commands strictly in the declared `instance_order` — not the topology
iteration order — each resolved against the one snapshot built after all
creates; and that one snapshot covers every node's resolved device info
under its node id, plus the host environment under `system`. -/
theorem create_vms_bring_up_protocol (ws : Workspace)
    (hok : (create_vms ws).2 = none)
    (hnd : (dictKeys ws.nodes).Nodup)
    (hsys : "system" ∉ dictKeys ws.nodes) :
    (create_vms ws).1 =
      listFlat (fun p => backend_create_vm ws p.1 p.2) ws.nodes ++
        Event.settle 10 :: ordered_run_events ws (build_env_params ws []) ∧
    (∀ nid, nid ∈ dictKeys ws.nodes →
      dictGet (build_env_params ws []) nid = some (ws.device_info nid)) ∧
    dictGet (build_env_params ws []) "system" =
      some (dictSet ws.host_env "base_dir" ws.base_dir) := by
  rcases hb : bring_up_loop ws (build_env_params ws []) ws.instance_order
    with ⟨runEvts, err⟩
  have hcv : create_vms ws =
      (listFlat (fun p => backend_create_vm ws p.1 p.2) ws.nodes ++
        Event.settle 10 :: runEvts, err) := by
    simp [create_vms, hb]
  refine ⟨?_, ?_, ?_⟩
  · rw [hcv]
    have herr : err = none := by rw [hcv] at hok; exact hok
    have hrun := bring_up_loop_ok ws (build_env_params ws [])
      ws.instance_order (by rw [hb]; exact herr)
    rw [hb] at hrun
    rw [ordered_run_events, ← hrun]
  · intro nid hin
    unfold build_env_params
    exact dictGet_foldl_dictSet_mem ws.device_info (get_all_node_ids ws)
      _ nid hin hnd
  · unfold build_env_params
    rw [dictGet_foldl_dictSet_not_mem ws.device_info (get_all_node_ids ws)
      _ "system" hsys]
    exact dictGet_dictSet_self [] "system" _

/-- Closed witness for `create_vms_bring_up_protocol`: on the concrete
two-node workspace whose bring-up order `[b, a]` differs from the
topology iteration order `[a, b]`, the trace follows the bring-up
order. -/
theorem create_vms_bring_up_protocol_witness :
    (create_vms wsOrder).1 =
      listFlat (fun p => backend_create_vm wsOrder p.1 p.2) wsOrder.nodes ++
        Event.settle 10 ::
          ordered_run_events wsOrder (build_env_params wsOrder []) :=
  (create_vms_bring_up_protocol wsOrder (by decide) (by decide) (by decide)).1

theorem runRemote_not_in_create_events (ws : Workspace) (nid s : String) :
    ∀ nodes : Dict VMConfig,
      Event.runRemote nid s ∉
        listFlat (fun p => backend_create_vm ws p.1 p.2) nodes := by
  intro nodes
  induction nodes with
  | nil => simp [listFlat]
  | cons p rest ih =>
    simp only [listFlat, List.mem_append]
    rintro (h | h)
    · by_cases hc : ws.create_ok p.1 <;> simp [backend_create_vm, hc] at h
    · exact ih h

theorem runRemote_instance_cmds_loop (ws : Workspace) (d : String)
    (env : EnvParams) (nid s : String) :
    ∀ cmds, Event.runRemote nid s ∈ (instance_cmds_loop ws d env cmds).1 →
      nid = d := by
  intro cmds
  induction cmds with
  | nil => intro h; cases h
  | cons c rest ih =>
    intro h
    cases hmem : (dictGet ws.nodes d).isSome with
    | false =>
      have hws : ws_run ws (some d) [c] env = ([], some (Err.keyError d)) := by
        simp [ws_run, hmem]
      simp [instance_cmds_loop, hws] at h
    | true =>
      cases hr : resolve_string env c with
      | error e =>
        have hws : ws_run ws (some d) [c] env = ([], some e) := by
          simp [ws_run, hmem, run_cmds, hr]
        simp [instance_cmds_loop, hws] at h
      | ok rc =>
        have hws : ws_run ws (some d) [c] env =
            ([Event.runRemote d rc], none) := by
          simp [ws_run, hmem, run_cmds, hr]
        rcases hrec : instance_cmds_loop ws d env rest with ⟨evs2, err2⟩
        have hred : instance_cmds_loop ws d env (c :: rest) =
            (Event.runRemote d rc :: evs2, err2) := by
          simp [instance_cmds_loop, hws, hrec]
        rw [hred] at h
        rcases List.mem_cons.mp h with h2 | h2
        · injection h2
        · have := ih (by rw [hrec]; exact h2)
          exact this

theorem runRemote_bring_up_loop (ws : Workspace) (env : EnvParams)
    (nid s : String) :
    ∀ order, Event.runRemote nid s ∈ (bring_up_loop ws env order).1 →
      nid ∈ order := by
  intro order
  induction order with
  | nil => intro h; cases h
  | cons a rest ih =>
    intro h
    cases hca : dictGet ws.nodes a with
    | none =>
      have hred : bring_up_loop ws env (a :: rest) =
          bring_up_loop ws env rest := by
        simp [bring_up_loop, hca]
      rw [hred] at h
      exact List.mem_cons_of_mem a (ih h)
    | some cfg =>
      cases hic : cfg.instance_commands with
      | none =>
        have hred : bring_up_loop ws env (a :: rest) =
            bring_up_loop ws env rest := by
          simp [bring_up_loop, hca, hic]
        rw [hred] at h
        exact List.mem_cons_of_mem a (ih h)
      | some cmds =>
        rcases hil : instance_cmds_loop ws a env cmds with ⟨evs, err⟩
        cases err with
        | some e =>
          have hred : bring_up_loop ws env (a :: rest) = (evs, some e) := by
            simp [bring_up_loop, hca, hic, hil]
          rw [hred] at h
          have : nid = a := runRemote_instance_cmds_loop ws a env nid s cmds
            (by rw [hil]; exact h)
          exact this ▸ List.mem_cons_self a rest
        | none =>
          rcases hbr : bring_up_loop ws env rest with ⟨evs2, err2⟩
          have hred : bring_up_loop ws env (a :: rest) =
              (evs ++ evs2, err2) := by
            simp [bring_up_loop, hca, hic, hil, hbr]
          rw [hred] at h
          rcases List.mem_append.mp h with h1 | h1
          · have : nid = a := runRemote_instance_cmds_loop ws a env nid s cmds
              (by rw [hil]; exact h1)
            exact this ▸ List.mem_cons_self a rest
          · exact List.mem_cons_of_mem a (ih (by rw [hbr]; exact h1))

theorem bring_up_loop_filter_present (ws : Workspace) (env : EnvParams) :
    ∀ order, bring_up_loop ws env order =
      bring_up_loop ws env
        (order.filter (fun i => (dictGet ws.nodes i).isSome)) := by
  intro order
  induction order with
  | nil => rfl
  | cons a rest ih =>
    cases hca : dictGet ws.nodes a with
    | none =>
      have hf : (a :: rest).filter (fun i => (dictGet ws.nodes i).isSome) =
          rest.filter (fun i => (dictGet ws.nodes i).isSome) := by
        simp [List.filter_cons, hca]
      rw [hf]
      have hred : bring_up_loop ws env (a :: rest) =
          bring_up_loop ws env rest := by
        simp [bring_up_loop, hca]
      rw [hred, ih]
    | some cfg =>
      have hf : (a :: rest).filter (fun i => (dictGet ws.nodes i).isSome) =
          a :: rest.filter (fun i => (dictGet ws.nodes i).isSome) := by
        simp [List.filter_cons, hca]
      rw [hf]
      simp only [bring_up_loop, hca]
      cases cfg.instance_commands with
      | none => exact ih
      | some cmds => rw [ih]

/-- C10: a node id appearing in the declared bring-up order but absent
from the node set is silently skipped — the bring-up outcome (events and
error alike) is identical to that of the order with unknown ids filtered
out, so no error is raised and no diagnostic printed; and a declared node
absent from the bring-up order has none of its instance commands
executed: no run event on that node appears anywhere in the `create_vms`
trace. -/
theorem create_vms_silent_skips (ws : Workspace) (nid : String)
    (hnotin : nid ∉ ws.instance_order) :
    bring_up_loop ws (build_env_params ws []) ws.instance_order =
      bring_up_loop ws (build_env_params ws [])
        (ws.instance_order.filter (fun i => (dictGet ws.nodes i).isSome)) ∧
    ∀ s, Event.runRemote nid s ∉ (create_vms ws).1 := by
  constructor
  · exact bring_up_loop_filter_present ws _ ws.instance_order
  · intro s h
    rcases hb : bring_up_loop ws (build_env_params ws []) ws.instance_order
      with ⟨runEvts, err⟩
    have hcv : (create_vms ws).1 =
        listFlat (fun p => backend_create_vm ws p.1 p.2) ws.nodes ++
          Event.settle 10 :: runEvts := by
      simp [create_vms, hb]
    rw [hcv] at h
    rcases List.mem_append.mp h with h1 | h1
    · exact runRemote_not_in_create_events ws nid s ws.nodes h1
    · rcases List.mem_cons.mp h1 with h2 | h2
      · exact Event.noConfusion h2
      · have hmem : nid ∈ ws.instance_order := by
          have h3 := runRemote_bring_up_loop ws (build_env_params ws [])
            nid s ws.instance_order
          rw [hb] at h3
          exact h3 h2
        exact hnotin hmem

/-- Closed witness for `create_vms_silent_skips`: a node id absent from
the bring-up order of the concrete two-node workspace gets no run
event. -/
theorem create_vms_silent_skips_witness :
    "zz" ∉ wsOrder.instance_order ∧
    Event.runRemote "zz" "x" ∉ (create_vms wsOrder).1 :=
  ⟨by decide, (create_vms_silent_skips wsOrder "zz" (by decide)).2 "x"⟩

end BuckyDevkit
